import Mathlib

/-!
Verification of `tfx/experimental/pipeline_testing/pipeline_recorder_utils.py`.

The Python module is a query-and-copy utility over an MLMD metadata store.
We shallowly embed the metadata store as lists of records, the filesystem
existence check as a boolean predicate on paths, and the side effects
(`os.makedirs`, `io_utils.copy_dir`) as an explicit list of operations
returned by the model.  Python exceptions become an `Option RecError`
result component.
-/

set_option autoImplicit false

namespace PipelineRecorder

/-- Direction of an event linking an execution to an artifact
(`metadata_store_pb2.Event.type`). -/
inductive EventType where
  | INPUT
  | OUTPUT
deriving DecidableEq, Repr

/-- A metadata-store event record (`metadata_store_pb2.Event`): links
execution `execution_id` to artifact `artifact_id` with a direction. -/
structure Event where
  execution_id : Nat
  artifact_id : Nat
  type : EventType
deriving DecidableEq, Repr

/-- A metadata-store artifact (`metadata_store_pb2.Artifact`).
`custom_properties` models the proto map from property name to
`Value.string_value`; a missing key reads as the proto default `""`
(see `propStr`). -/
structure Artifact where
  id : Nat
  uri : String
  custom_properties : List (String × String)
deriving DecidableEq, Repr

/-- A metadata-store execution (`metadata_store_pb2.Execution`), with its
`properties` proto map restricted to string values. -/
structure Execution where
  id : Nat
  properties : List (String × String)
deriving DecidableEq, Repr

/-- A metadata-store context (`metadata_store_pb2.Context`).
`context_type` is the name of the context's type (the store's
`get_contexts_by_type` filters on it). -/
structure Context where
  id : Nat
  context_type : String
  properties : List (String × String)
  last_update_time_since_epoch : Nat
deriving DecidableEq, Repr

/-- The contents of the MLMD metadata store reachable through
`metadata_connection.store`, as far as this module queries it.
`associations` holds the (context id, execution id) attribution pairs
behind `get_executions_by_context`. -/
structure MetadataStore where
  executions : List Execution
  events : List Event
  artifacts : List Artifact
  contexts : List Context
  associations : List (Nat × Nat)
deriving Repr

/-- Reading `m[key].string_value` on a protobuf map: the stored string if
the key is present, the proto default `""` otherwise. -/
def propStr (props : List (String × String)) (key : String) : String :=
  match props.find? (fun p => p.1 = key) with
  | some p => p.2
  | none => ""

/-- `store.get_events_by_execution_ids(ids)`: every event whose
`execution_id` is among `ids`. -/
def get_events_by_execution_ids (s : MetadataStore) (ids : List Nat) : List Event :=
  s.events.filter (fun e => e.execution_id ∈ ids)

/-- `store.get_artifacts_by_id(ids)`: one artifact per id that exists in
the store; ids with no artifact are silently skipped. -/
def get_artifacts_by_id (s : MetadataStore) (ids : List Nat) : List Artifact :=
  ids.filterMap (fun i => s.artifacts.find? (fun a => a.id = i))

/-- `store.get_contexts_by_type(name)`: contexts whose type has the given
name. -/
def get_contexts_by_type (s : MetadataStore) (type_name : String) : List Context :=
  s.contexts.filter (fun c => c.context_type = type_name)

/-- `store.get_executions_by_context(cid)`: executions attributed to the
context `cid`. -/
def get_executions_by_context (s : MetadataStore) (cid : Nat) : List Execution :=
  s.executions.filter (fun e => (cid, e.id) ∈ s.associations)

/-- `os.path.join(path, b)` on POSIX (`posixpath.join`): if `b` starts
with the separator `'/'` it replaces the path, else it is appended,
inserting `'/'` unless the accumulated path is empty or already ends in
`'/'`.  Starts-with/ends-with of the one-character separator are phrased
as first/last character tests. -/
def pathJoin (path b : String) : String :=
  if b.data.head? = some '/' then b
  else if path = "" ∨ path.data.getLast? = some '/' then path ++ b
  else path ++ "/" ++ b

/-- The events the generator `get_paths` keeps: events of the given
executions whose type is `OUTPUT` (the list comprehension at the top of
`get_paths`). -/
def outputEvents (s : MetadataStore) (executions : List Execution) : List Event :=
  (get_events_by_execution_ids s (executions.map (fun e => e.id))).filter
    (fun x => x.type = EventType.OUTPUT)

/-- `unique_artifact_ids = list({x.artifact_id for x in events})`.  The
Python set deduplicates; its iteration order is modelled as
first-occurrence order. -/
def unique_artifact_ids (s : MetadataStore) (executions : List Execution) : List Nat :=
  ((outputEvents s executions).map (fun x => x.artifact_id)).dedup

/-- The pair `get_paths` yields for one artifact:
`(artifact.uri, os.path.join(output_dir, producer_component, name))`. -/
def artifactPair (output_dir : String) (artifact : Artifact) : String × String :=
  (artifact.uri,
   pathJoin (pathJoin output_dir (propStr artifact.custom_properties "producer_component"))
     (propStr artifact.custom_properties "name"))

/-- `get_paths(metadata_connection, executions, output_dir)`: the list of
`(src_uri, dest_uri)` pairs the generator yields, in order. -/
def get_paths (s : MetadataStore) (executions : List Execution) (output_dir : String) :
    List (String × String) :=
  (get_artifacts_by_id s (unique_artifact_ids s executions)).map (artifactPair output_dir)

/-- One `defaultdict(list)` update: append `e` to the list at key `k`,
creating the entry if absent. -/
def dictAppend (d : List (String × List Execution)) (k : String) (e : Execution) :
    List (String × List Execution) :=
  match d with
  | [] => [(k, [e])]
  | (k', l) :: rest =>
    if k' = k then (k', l ++ [e]) :: rest else (k', l) :: dictAppend rest k e

/-- Reading `d[k]` on a key known to be present (`[]` if absent). -/
def dictLookup (d : List (String × List Execution)) (k : String) : List Execution :=
  match d.find? (fun kv => kv.1 = k) with
  | some kv => kv.2
  | none => []

/-- The Python test `k in d`. -/
def dictHasKey (d : List (String × List Execution)) (k : String) : Bool :=
  (d.find? (fun kv => kv.1 = k)).isSome

/-- `get_execution_dict(metadata_connection)`: group the store's
executions by their `properties['run_id'].string_value`. -/
def get_execution_dict (s : MetadataStore) : List (String × List Execution) :=
  s.executions.foldl (fun d e => dictAppend d (propStr e.properties "run_id") e) []

/-- Python's `max(l, key=k)` starting from `init`: fold keeping the
current maximum, replacing it only on a strictly greater key, so ties
keep the earliest element. -/
def pyFoldMax {α : Type} (key : α → Nat) (init : α) (l : List α) : α :=
  l.foldl (fun best c => if key best < key c then c else best) init

/-- Python's `max(l, key=k)`: `none` models the `ValueError` raised on an
empty sequence. -/
def pyMaxBy {α : Type} (key : α → Nat) : List α → Option α
  | [] => none
  | x :: xs => some (pyFoldMax key x xs)

/-- `metadata._CONTEXT_TYPE_PIPELINE_RUN`.  Modelled from the spec: the
"pipeline run" context type name lives in `tfx.orchestration.metadata`,
which is not part of this source tree; only its identity matters here. -/
def CONTEXT_TYPE_PIPELINE_RUN : String := "run"

/-- The `pipeline_run_contexts` list comprehension inside
`get_latest_executions`: pipeline-run contexts whose
`properties['pipeline_name'].string_value` matches. -/
def matchingContexts (s : MetadataStore) (pipeline_name : String) : List Context :=
  (get_contexts_by_type s CONTEXT_TYPE_PIPELINE_RUN).filter
    (fun c => propStr c.properties "pipeline_name" = pipeline_name)

/-- `get_latest_executions(metadata_connection, pipeline_name)`: the
executions of the matching pipeline-run context with the greatest
`last_update_time_since_epoch`.  `none` models the `ValueError` Python's
`max` raises when no context matches. -/
def get_latest_executions (s : MetadataStore) (pipeline_name : String) :
    Option (List Execution) :=
  match pyMaxBy (fun c => c.last_update_time_since_epoch) (matchingContexts s pipeline_name) with
  | none => none
  | some latest_context => some (get_executions_by_context s latest_context.id)

/-- The metadata connection configuration `record_pipeline` builds. -/
inductive ConnConfig where
  | grpc (host : String) (port : Nat)
  | sqlite (uri : String)
deriving DecidableEq, Repr

/-- A Python exception this module raises. -/
inductive RecError where
  | valueError (msg : String)
  | fileNotFound (msg : String)
deriving DecidableEq, Repr

/-- A filesystem side effect `record_pipeline` performs:
`os.makedirs(path, exist_ok=True)` (creates parents, tolerates prior
existence) or `io_utils.copy_dir(src, dest)`. -/
inductive FsOp where
  | makedirs (path : String)
  | copyDir (src : String) (dest : String)
deriving DecidableEq, Repr

/-- The config-selection prelude of `record_pipeline`: gRPC when host and
port are both given, else sqlite when `metadata_db_uri` is given, else
`ValueError`. -/
def chooseConfig (metadata_db_uri : Option String) (host : Option String)
    (port : Option Nat) : Except RecError ConnConfig :=
  match host, port with
  | some h, some p => Except.ok (ConnConfig.grpc h p)
  | _, _ =>
    match metadata_db_uri with
    | some uri => Except.ok (ConnConfig.sqlite uri)
    | none =>
      Except.error (RecError.valueError
        "For KFP, host and port are required. For beam pipeline, metadata_db_uri is required.")

/-- The execution-selection branch of `record_pipeline`: by `run_id` when
given, otherwise by the latest pipeline-run context of `pipeline_name`. -/
def selectExecutions (s : MetadataStore) (pipeline_name : Option String)
    (run_id : Option String) : Except RecError (List Execution) :=
  match run_id with
  | none =>
    match pipeline_name with
    | none =>
      Except.error (RecError.valueError
        "If the run_id is not specified, pipeline_name should be specified")
    | some pn =>
      match get_latest_executions s pn with
      | none => Except.error (RecError.valueError "max() arg is an empty sequence")
      | some executions => Except.ok executions
  | some rid =>
    let execution_dict := get_execution_dict s
    if dictHasKey execution_dict rid then
      Except.ok (dictLookup execution_dict rid)
    else
      Except.error (RecError.valueError
        ("run_id " ++ rid ++ " is not recorded in the MLMD metadata"))

/-- The copy loop at the end of `record_pipeline`, over the pairs yielded
by `get_paths`: for each pair, raise `FileNotFoundError` if the source is
missing, else `os.makedirs(dest_uri, exist_ok=True)` then
`io_utils.copy_dir(src_uri, dest_uri)`.  Returns the operations performed
(in order) and the first exception, if any. -/
def copyLoop (fs : String → Bool) : List (String × String) → List FsOp × Option RecError
  | [] => ([], none)
  | (src_uri, dest_uri) :: rest =>
    if fs src_uri then
      let r := copyLoop fs rest
      (FsOp.makedirs dest_uri :: FsOp.copyDir src_uri dest_uri :: r.1, r.2)
    else
      ([], some (RecError.fileNotFound (src_uri ++ " does not exist")))

/-- The operations the copy loop performs for a list of
`(src_uri, dest_uri)` pairs when every source exists: for each pair a
`makedirs dest` followed by a `copyDir src dest`. -/
def copyOps : List (String × String) → List FsOp
  | [] => []
  | (src_uri, dest_uri) :: rest =>
    FsOp.makedirs dest_uri :: FsOp.copyDir src_uri dest_uri :: copyOps rest

/-- `record_pipeline(output_dir, metadata_db_uri, host, port,
pipeline_name, run_id)` run against store contents `s` and filesystem
state `fs`: the filesystem operations performed, and the exception raised
if any. -/
def record_pipeline (s : MetadataStore) (fs : String → Bool) (output_dir : String)
    (metadata_db_uri : Option String) (host : Option String) (port : Option Nat)
    (pipeline_name : Option String) (run_id : Option String) :
    List FsOp × Option RecError :=
  match chooseConfig metadata_db_uri host port with
  | Except.error e => ([], some e)
  | Except.ok _ =>
    match selectExecutions s pipeline_name run_id with
    | Except.error e => ([], some e)
    | Except.ok executions => copyLoop fs (get_paths s executions output_dir)

/-- A small concrete metadata store used to instantiate the theorems:
two executions of run `r1`, artifact 10 produced by both (two OUTPUT
events), artifact 11 only consumed (INPUT event), artifact 12 produced
once, and two pipeline-run contexts for pipeline `p` with different
update times. -/
def sampleStore : MetadataStore where
  executions := [⟨1, [("run_id", "r1")]⟩, ⟨2, [("run_id", "r1")]⟩]
  events := [⟨1, 10, EventType.OUTPUT⟩, ⟨1, 11, EventType.INPUT⟩,
             ⟨2, 10, EventType.OUTPUT⟩, ⟨2, 12, EventType.OUTPUT⟩]
  artifacts := [⟨10, "/tmp/a10", [("producer_component", "CsvExampleGen"), ("name", "examples")]⟩,
                ⟨11, "/tmp/a11", [("producer_component", "X"), ("name", "xin")]⟩,
                ⟨12, "/tmp/a12", [("producer_component", "Trainer"), ("name", "model")]⟩]
  contexts := [⟨100, "run", [("pipeline_name", "p")], 5⟩,
               ⟨101, "run", [("pipeline_name", "p")], 9⟩]
  associations := [(100, 1), (101, 1), (101, 2)]

/-- A metadata store with no contents at all. -/
def noContextStore : MetadataStore where
  executions := []
  events := []
  artifacts := []
  contexts := []
  associations := []

/-- A filesystem on which every path exists. -/
def allFs : String → Bool := fun _ => true

/-- A filesystem on which only `/tmp/a10` exists. -/
def onlyA10Fs : String → Bool := fun p => p == "/tmp/a10"

/-! ### Helper lemmas about the dictionary built by `get_execution_dict` -/

theorem dictLookup_nil (k : String) : dictLookup [] k = [] := rfl

theorem dictLookup_cons (a : String) (l : List Execution)
    (rest : List (String × List Execution)) (k : String) :
    dictLookup ((a, l) :: rest) k = if a = k then l else dictLookup rest k := by
  by_cases h : a = k
  · simp [dictLookup, List.find?, h]
  · simp [dictLookup, List.find?, h]

theorem dictLookup_dictAppend (d : List (String × List Execution)) (k : String)
    (e : Execution) (k' : String) :
    dictLookup (dictAppend d k e) k' =
      dictLookup d k' ++ (if k' = k then [e] else []) := by
  induction d with
  | nil =>
    simp only [dictAppend, dictLookup_cons, dictLookup_nil, List.nil_append]
    rcases eq_or_ne k k' with h | h
    · subst h; simp
    · rw [if_neg h, if_neg (fun hh => h hh.symm)]
  | cons kv rest ih =>
    obtain ⟨a, l⟩ := kv
    by_cases hak : a = k
    · simp only [dictAppend, if_pos hak, dictLookup_cons]
      by_cases hak' : a = k'
      · have : k' = k := by rw [← hak', hak]
        simp [hak', this]
      · have : ¬ k' = k := fun hh => hak' (by rw [hak, ← hh])
        simp [hak', this]
    · simp only [dictAppend, if_neg hak, dictLookup_cons]
      by_cases hak' : a = k'
      · have : ¬ k' = k := fun hh => hak (by rw [hak', hh])
        simp [hak', this]
      · simp [hak', ih]

theorem dictHasKey_nil (k : String) : dictHasKey [] k = false := rfl

theorem dictHasKey_cons (a : String) (l : List Execution)
    (rest : List (String × List Execution)) (k : String) :
    dictHasKey ((a, l) :: rest) k = true ↔ (a = k ∨ dictHasKey rest k = true) := by
  by_cases h : a = k
  · simp [dictHasKey, List.find?, h]
  · simp [dictHasKey, List.find?, h]

theorem dictHasKey_dictAppend (d : List (String × List Execution)) (k : String)
    (e : Execution) (k' : String) :
    dictHasKey (dictAppend d k e) k' = true ↔ (dictHasKey d k' = true ∨ k' = k) := by
  induction d with
  | nil =>
    simp only [dictAppend, dictHasKey_cons, dictHasKey_nil]
    constructor
    · rintro (h | h)
      · exact Or.inr h.symm
      · simp at h
    · rintro (h | h)
      · simp at h
      · exact Or.inl h.symm
  | cons kv rest ih =>
    obtain ⟨a, l⟩ := kv
    by_cases hak : a = k
    · simp only [dictAppend, if_pos hak, dictHasKey_cons]
      constructor
      · rintro (h | h)
        · exact Or.inl (Or.inl h)
        · exact Or.inl (Or.inr h)
      · rintro ((h | h) | h)
        · exact Or.inl h
        · exact Or.inr h
        · exact Or.inl (by rw [hak, ← h])
    · simp only [dictAppend, if_neg hak, dictHasKey_cons, ih]
      tauto

theorem dictLookup_foldl (l : List Execution) (k : String) :
    ∀ d, dictLookup
        (l.foldl (fun d e => dictAppend d (propStr e.properties "run_id") e) d) k
      = dictLookup d k ++ l.filter (fun e => propStr e.properties "run_id" = k) := by
  induction l with
  | nil => intro d; simp
  | cons e l ih =>
    intro d
    rw [List.foldl_cons, ih, dictLookup_dictAppend, List.filter_cons]
    by_cases h : propStr e.properties "run_id" = k
    · simp [h, List.append_assoc]
    · have : ¬ k = propStr e.properties "run_id" := fun hh => h hh.symm
      simp [h, this]

theorem dictHasKey_foldl (l : List Execution) (k : String) :
    ∀ d, (dictHasKey
        (l.foldl (fun d e => dictAppend d (propStr e.properties "run_id") e) d) k = true
      ↔ (dictHasKey d k = true ∨ ∃ e ∈ l, propStr e.properties "run_id" = k)) := by
  induction l with
  | nil => intro d; simp
  | cons e l ih =>
    intro d
    rw [List.foldl_cons, ih, dictHasKey_dictAppend]
    constructor
    · rintro ((h | h) | ⟨e', he', hk⟩)
      · exact Or.inl h
      · exact Or.inr ⟨e, List.mem_cons_self _ _, h.symm⟩
      · exact Or.inr ⟨e', List.mem_cons_of_mem _ he', hk⟩
    · rintro (h | ⟨e', he', hk⟩)
      · exact Or.inl (Or.inl h)
      · rcases List.mem_cons.mp he' with rfl | he'
        · exact Or.inl (Or.inr hk.symm)
        · exact Or.inr ⟨e', he', hk⟩

theorem dictLookup_get_execution_dict (s : MetadataStore) (k : String) :
    dictLookup (get_execution_dict s) k
      = s.executions.filter (fun e => propStr e.properties "run_id" = k) := by
  have h := dictLookup_foldl s.executions k []
  simpa [get_execution_dict] using h

theorem dictHasKey_get_execution_dict (s : MetadataStore) (k : String) :
    dictHasKey (get_execution_dict s) k = true
      ↔ ∃ e ∈ s.executions, propStr e.properties "run_id" = k := by
  have h := dictHasKey_foldl s.executions k []
  simpa [get_execution_dict, dictHasKey_nil] using h

/-! ### Helper lemmas about Python's `max`, the copy loop, and `filterMap` -/

theorem pyFoldMax_cons {α : Type} (key : α → Nat) (init c : α) (l : List α) :
    pyFoldMax key init (c :: l)
      = pyFoldMax key (if key init < key c then c else init) l := rfl

theorem pyFoldMax_spec {α : Type} (key : α → Nat) :
    ∀ (l : List α) (init : α),
      (pyFoldMax key init l = init ∨ pyFoldMax key init l ∈ l)
      ∧ key init ≤ key (pyFoldMax key init l)
      ∧ ∀ y ∈ l, key y ≤ key (pyFoldMax key init l) := by
  intro l
  induction l with
  | nil => intro init; simp [pyFoldMax]
  | cons c l ih =>
    intro init
    have hc : pyFoldMax key init (c :: l)
        = pyFoldMax key (if key init < key c then c else init) l := rfl
    rcases ih (if key init < key c then c else init) with ⟨hmem, hinit, hall⟩
    have hinit_le : key init ≤ key (if key init < key c then c else init) := by
      split_ifs with h
      · exact Nat.le_of_lt h
      · exact Nat.le_refl _
    have hc_le : key c ≤ key (if key init < key c then c else init) := by
      split_ifs with h
      · exact Nat.le_refl _
      · exact Nat.le_of_not_lt h
    refine ⟨?_, ?_, ?_⟩
    · rw [hc]
      rcases hmem with h | h
      · rw [h]; split_ifs with hlt
        · exact Or.inr (List.mem_cons_self _ _)
        · exact Or.inl rfl
      · exact Or.inr (List.mem_cons_of_mem _ h)
    · rw [hc]; exact Nat.le_trans hinit_le hinit
    · intro y hy
      rw [hc]
      rcases List.mem_cons.mp hy with rfl | hy
      · exact Nat.le_trans hc_le hinit
      · exact hall y hy

theorem get_latest_executions_eq_none_iff (s : MetadataStore) (pn : String) :
    get_latest_executions s pn = none ↔ matchingContexts s pn = [] := by
  cases h : matchingContexts s pn with
  | nil => simp [get_latest_executions, h, pyMaxBy]
  | cons c l => simp [get_latest_executions, h, pyMaxBy]

theorem copyLoop_fst_of_none (fs : String → Bool) :
    ∀ l, (copyLoop fs l).2 = none → (copyLoop fs l).1 = copyOps l := by
  intro l
  induction l with
  | nil => intro _; rfl
  | cons p rest ih =>
    obtain ⟨src, dest⟩ := p
    intro h
    cases hfs : fs src with
    | false => simp [copyLoop, hfs] at h
    | true =>
      simp only [copyLoop, hfs, if_true] at h ⊢
      simp only [copyOps]
      rw [ih h]

theorem copyLoop_ne_valueError (fs : String → Bool) :
    ∀ l m, (copyLoop fs l).2 ≠ some (RecError.valueError m) := by
  intro l
  induction l with
  | nil => intro m h; simp [copyLoop] at h
  | cons p rest ih =>
    obtain ⟨src, dest⟩ := p
    intro m h
    cases hfs : fs src with
    | false => simp [copyLoop, hfs] at h
    | true =>
      simp only [copyLoop, hfs, if_true] at h
      exact ih m h

theorem copyLoop_append_fail (fs : String → Bool) (src dest : String)
    (after : List (String × String)) :
    ∀ before, (∀ p ∈ before, fs p.1 = true) → fs src = false →
      copyLoop fs (before ++ (src, dest) :: after) =
        (copyOps before, some (RecError.fileNotFound (src ++ " does not exist"))) := by
  intro before
  induction before with
  | nil => intro _ hsrc; simp [copyLoop, hsrc, copyOps]
  | cons p rest ih =>
    obtain ⟨s0, d0⟩ := p
    intro hall hsrc
    have hs0 : fs s0 = true := hall (s0, d0) (List.mem_cons_self _ _)
    have hrest := ih (fun q hq => hall q (List.mem_cons_of_mem _ hq)) hsrc
    simp only [List.cons_append, copyLoop, hs0, if_true, List.append_eq, hrest, copyOps]

theorem filterMap_eq_map_getD {α β : Type} (f : α → Option β) (d : β) :
    ∀ l : List α, (∀ i ∈ l, (f i).isSome) →
      l.filterMap f = l.map (fun i => (f i).getD d) := by
  intro l
  induction l with
  | nil => intro _; rfl
  | cons a l ih =>
    intro h
    have ha := h a (List.mem_cons_self _ _)
    obtain ⟨b, hb⟩ := Option.isSome_iff_exists.mp ha
    simp [List.filterMap_cons, hb, ih (fun i hi => h i (List.mem_cons_of_mem _ hi))]

/-! ### Characterizations of the config and execution selection steps -/

theorem chooseConfig_spec (uri : Option String) (host : Option String) (port : Option Nat) :
    ((∃ m, chooseConfig uri host port = Except.error (RecError.valueError m))
        ↔ (¬(host ≠ none ∧ port ≠ none) ∧ uri = none))
    ∧ ((∃ c, chooseConfig uri host port = Except.ok c)
        ↔ ((host ≠ none ∧ port ≠ none) ∨ uri ≠ none))
    ∧ (∀ e, chooseConfig uri host port = Except.error e → ∃ m, e = RecError.valueError m)
    ∧ (∀ h p, host = some h → port = some p →
        chooseConfig uri host port = Except.ok (ConnConfig.grpc h p)) := by
  rcases host with _ | h <;> rcases port with _ | p <;> rcases uri with _ | u <;>
    simp [chooseConfig]

theorem selectExecutions_valueError_iff (s : MetadataStore) (pn rid : Option String) :
    (∃ m, selectExecutions s pn rid = Except.error (RecError.valueError m))
      ↔ ((rid = none ∧ pn = none)
        ∨ (∃ r, rid = some r ∧ ∀ e ∈ s.executions, propStr e.properties "run_id" ≠ r)
        ∨ (rid = none ∧ ∃ p, pn = some p ∧ matchingContexts s p = [])) := by
  rcases rid with _ | r
  · rcases pn with _ | p
    · simp [selectExecutions]
    · cases hle : get_latest_executions s p with
      | none =>
        have hm : matchingContexts s p = [] := (get_latest_executions_eq_none_iff s p).mp hle
        simp [selectExecutions, hle, hm]
      | some ex =>
        have hm : ¬ matchingContexts s p = [] := by
          intro hmm
          rw [(get_latest_executions_eq_none_iff s p).mpr hmm] at hle
          exact Option.noConfusion hle
        simp [selectExecutions, hle, hm]
  · cases hk : dictHasKey (get_execution_dict s) r with
    | true =>
      obtain ⟨e, he, hre⟩ := (dictHasKey_get_execution_dict s r).mp hk
      constructor
      · rintro ⟨m, hm⟩
        simp [selectExecutions, hk] at hm
      · rintro (⟨h1, _⟩ | ⟨r', hr', hall⟩ | ⟨h1, _⟩)
        · exact Option.noConfusion h1
        · have hrr : r = r' := by injection hr'
          exact absurd hre (by rw [hrr]; exact hall e he)
        · exact Option.noConfusion h1
    | false =>
      have hnex : ∀ e ∈ s.executions, propStr e.properties "run_id" ≠ r := by
        intro e he hr
        have := (dictHasKey_get_execution_dict s r).mpr ⟨e, he, hr⟩
        rw [hk] at this
        exact Bool.noConfusion this
      refine ⟨fun _ => Or.inr (Or.inl ⟨r, rfl, hnex⟩), fun _ => ?_⟩
      exact ⟨"run_id " ++ r ++ " is not recorded in the MLMD metadata",
        by simp [selectExecutions, hk]⟩

theorem record_pipeline_valueError_of_ok (s : MetadataStore) (fs : String → Bool)
    (out : String) (uri : Option String) (host : Option String) (port : Option Nat)
    (pn rid : Option String) (cfg : ConnConfig)
    (hcfg : chooseConfig uri host port = Except.ok cfg) :
    (∃ m, (record_pipeline s fs out uri host port pn rid).2
        = some (RecError.valueError m))
      ↔ (∃ m, selectExecutions s pn rid = Except.error (RecError.valueError m)) := by
  cases hsel : selectExecutions s pn rid with
  | error e => simp [record_pipeline, hcfg, hsel]
  | ok ex =>
    constructor
    · rintro ⟨m, hm⟩
      simp only [record_pipeline, hcfg, hsel] at hm
      exact absurd hm (copyLoop_ne_valueError fs _ m)
    · rintro ⟨m, hm⟩
      exact Except.noConfusion hm

/-! ### The claims -/

/-- C1: provided every artifact id referenced by an OUTPUT event of the
given executions exists in the store, `get_paths` yields exactly one
`(src_uri, dest_uri)` pair per distinct artifact id occurring in an
OUTPUT event of those executions: the pair count equals the count of
distinct OUTPUT artifact ids, those ids are pairwise distinct, and an id
is among them exactly when some OUTPUT event of the executions references
it — so INPUT-only artifacts contribute no pair and repeated OUTPUT
references contribute one. -/
theorem C1_one_pair_per_output_artifact (s : MetadataStore)
    (executions : List Execution) (output_dir : String)
    (h : ∀ i ∈ unique_artifact_ids s executions,
      (s.artifacts.find? (fun a => a.id = i)).isSome) :
    (get_paths s executions output_dir).length
        = (unique_artifact_ids s executions).length
    ∧ (unique_artifact_ids s executions).Nodup
    ∧ ∀ i, i ∈ unique_artifact_ids s executions ↔
        ∃ ev ∈ s.events, ev.execution_id ∈ executions.map (fun e => e.id)
          ∧ ev.type = EventType.OUTPUT ∧ ev.artifact_id = i := by
  refine ⟨?_, List.nodup_dedup _, ?_⟩
  · simp only [get_paths, get_artifacts_by_id, List.length_map]
    rw [filterMap_eq_map_getD _ ⟨0, "", []⟩ _ h, List.length_map]
  · intro i
    simp only [unique_artifact_ids, outputEvents, get_events_by_execution_ids,
      List.mem_dedup, List.mem_map, List.mem_filter, decide_eq_true_eq]
    constructor
    · rintro ⟨ev, ⟨⟨hev, hexec⟩, htype⟩, hid⟩
      exact ⟨ev, hev, hexec, htype, hid⟩
    · rintro ⟨ev, hev, hexec, htype, hid⟩
      exact ⟨ev, ⟨⟨hev, hexec⟩, htype⟩, hid⟩

/-- Witness for C1 on the sample store: two distinct artifacts (10 and
12) occur in OUTPUT events, artifact 11 only in an INPUT event, and
artifact 10 in two OUTPUT events; `get_paths` yields exactly two pairs. -/
theorem C1_witness :
    (get_paths sampleStore sampleStore.executions "out").length
      = (unique_artifact_ids sampleStore sampleStore.executions).length :=
  (C1_one_pair_per_output_artifact sampleStore sampleStore.executions "out" (by decide)).1

/-- C2: every pair yielded by `get_paths` is
`(artifact.uri, os.path.join(output_dir, producer_component, name))` for
one of the selected artifacts, where the two path components are the
string values of the artifact's custom properties `producer_component`
and `name`. -/
theorem C2_pair_is_uri_and_joined_dest (s : MetadataStore)
    (executions : List Execution) (output_dir : String) :
    ∀ sd ∈ get_paths s executions output_dir,
      ∃ a ∈ get_artifacts_by_id s (unique_artifact_ids s executions),
        sd = (a.uri,
          pathJoin (pathJoin output_dir (propStr a.custom_properties "producer_component"))
            (propStr a.custom_properties "name")) := by
  intro sd hsd
  simp only [get_paths] at hsd
  rcases List.mem_map.mp hsd with ⟨a, ha, rfl⟩
  exact ⟨a, ha, rfl⟩

/-- Witness for C2: the first pair on the sample store comes from
artifact 10, produced by `CsvExampleGen` under the name `examples`. -/
theorem C2_witness :
    ∃ a ∈ get_artifacts_by_id sampleStore
        (unique_artifact_ids sampleStore sampleStore.executions),
      (("/tmp/a10", "out/CsvExampleGen/examples") : String × String)
        = (a.uri,
          pathJoin (pathJoin "out" (propStr a.custom_properties "producer_component"))
            (propStr a.custom_properties "name")) :=
  C2_pair_is_uri_and_joined_dest sampleStore sampleStore.executions "out"
    ("/tmp/a10", "out/CsvExampleGen/examples") (by decide)

/-- C3: whenever at least one pipeline-run context matches
`pipeline_name`, `get_latest_executions` returns exactly the executions
associated with a matching context whose `last_update_time_since_epoch`
is maximal among the matching contexts. -/
theorem C3_latest_context_executions (s : MetadataStore) (pn : String)
    (h : matchingContexts s pn ≠ []) :
    ∃ c ∈ matchingContexts s pn,
      (∀ c' ∈ matchingContexts s pn,
          c'.last_update_time_since_epoch ≤ c.last_update_time_since_epoch)
      ∧ get_latest_executions s pn = some (get_executions_by_context s c.id) := by
  obtain ⟨x, xs, hx⟩ := List.exists_cons_of_ne_nil h
  rcases pyFoldMax_spec (fun c => c.last_update_time_since_epoch) xs x with
    ⟨hmem, hinit, hall⟩
  refine ⟨pyFoldMax (fun c => c.last_update_time_since_epoch) x xs, ?_, ?_, ?_⟩
  · rw [hx]
    rcases hmem with hm | hm
    · rw [hm]; exact List.mem_cons_self _ _
    · exact List.mem_cons_of_mem _ hm
  · intro c' hc'
    rw [hx] at hc'
    rcases List.mem_cons.mp hc' with rfl | hc'
    · exact hinit
    · exact hall c' hc'
  · simp [get_latest_executions, hx, pyMaxBy]

/-- Witness for C3 on the sample store: pipeline `p` has two run
contexts (update times 5 and 9); the selected context is the one with
time 9. -/
theorem C3_witness :
    ∃ c ∈ matchingContexts sampleStore "p",
      (∀ c' ∈ matchingContexts sampleStore "p",
          c'.last_update_time_since_epoch ≤ c.last_update_time_since_epoch)
      ∧ get_latest_executions sampleStore "p"
          = some (get_executions_by_context sampleStore c.id) :=
  C3_latest_context_executions sampleStore "p" (by decide)

/-- C5: `get_execution_dict` partitions the store's executions by run
id: looking up any key `k` gives exactly the executions whose
`properties['run_id'].string_value` is `k`, in the order `get_executions`
returned them, and a key is present exactly when some execution carries
it. -/
theorem C5_execution_dict_partitions_by_run_id (s : MetadataStore) (k : String) :
    dictLookup (get_execution_dict s) k
        = s.executions.filter (fun e => propStr e.properties "run_id" = k)
    ∧ (dictHasKey (get_execution_dict s) k = true
        ↔ ∃ e ∈ s.executions, propStr e.properties "run_id" = k) :=
  ⟨dictLookup_get_execution_dict s k, dictHasKey_get_execution_dict s k⟩

/-- Witness for C5: on the sample store, the dictionary maps run id `r1`
to both executions in store order. -/
theorem C5_witness :
    dictLookup (get_execution_dict sampleStore) "r1"
      = sampleStore.executions.filter
          (fun e => propStr e.properties "run_id" = "r1") :=
  (C5_execution_dict_partitions_by_run_id sampleStore "r1").1

/-- C7: `record_pipeline` is deterministic: two runs with the same
arguments over the same metadata-store contents and the same filesystem
state produce the same operations and outcome. -/
theorem C7_record_pipeline_deterministic (s : MetadataStore) (fs : String → Bool)
    (out : String) (uri : Option String) (host : Option String) (port : Option Nat)
    (pn rid : Option String) (r₁ r₂ : List FsOp × Option RecError)
    (h₁ : record_pipeline s fs out uri host port pn rid = r₁)
    (h₂ : record_pipeline s fs out uri host port pn rid = r₂) :
    r₁ = r₂ := by
  rw [← h₁, ← h₂]

/-- Witness for C7: two identical concrete runs coincide. -/
theorem C7_witness :
    record_pipeline sampleStore allFs "out" (some "db") none none none (some "r1")
      = record_pipeline sampleStore allFs "out" (some "db") none none none (some "r1") :=
  C7_record_pipeline_deterministic sampleStore allFs "out" (some "db") none none
    none (some "r1") _ _ rfl rfl

/-- C4: when `run_id` is given and recorded, `record_pipeline` selects
exactly the executions whose `properties['run_id'].string_value` equals
`run_id`, and its behaviour does not depend on the `pipeline_name`
argument at all; the latest-context lookup is reached only with
`run_id = None`. -/
theorem C4_run_id_selection_ignores_pipeline_name (s : MetadataStore)
    (fs : String → Bool) (out : String) (uri : Option String)
    (host : Option String) (port : Option Nat) (rid : String)
    (h : ∃ e ∈ s.executions, propStr e.properties "run_id" = rid) :
    (∀ pn : Option String, selectExecutions s pn (some rid)
        = Except.ok (s.executions.filter
            (fun e => propStr e.properties "run_id" = rid)))
    ∧ ∀ pn pn' : Option String,
        record_pipeline s fs out uri host port pn (some rid)
          = record_pipeline s fs out uri host port pn' (some rid) := by
  have hk : dictHasKey (get_execution_dict s) rid = true :=
    (dictHasKey_get_execution_dict s rid).mpr h
  refine ⟨fun pn => ?_, fun pn pn' => rfl⟩
  simp [selectExecutions, hk, dictLookup_get_execution_dict]

/-- Witness for C4: run id `r1` is recorded in the sample store; the
selection returns both of its executions whatever `pipeline_name` is. -/
theorem C4_witness :
    selectExecutions sampleStore (some "other") (some "r1")
      = Except.ok (sampleStore.executions.filter
          (fun e => propStr e.properties "run_id" = "r1")) :=
  (C4_run_id_selection_ignores_pipeline_name sampleStore allFs "out" (some "db")
    none none "r1" (by decide)).1 (some "other")

/-- C6: on a run of `record_pipeline` that raises no exception, the
selected executions were obtained successfully and the operations
performed are exactly, for every `(src_uri, dest_uri)` pair of
`get_paths` in order, `os.makedirs(dest_uri, exist_ok=True)` followed by
`copy_dir(src_uri, dest_uri)` — so every output artifact of the selected
executions is copied into the `output_dir` tree. -/
theorem C6_no_exception_copies_everything (s : MetadataStore) (fs : String → Bool)
    (out : String) (uri : Option String) (host : Option String) (port : Option Nat)
    (pn rid : Option String)
    (h : (record_pipeline s fs out uri host port pn rid).2 = none) :
    ∃ executions, selectExecutions s pn rid = Except.ok executions
      ∧ (record_pipeline s fs out uri host port pn rid).1
          = copyOps (get_paths s executions out) := by
  cases hcfg : chooseConfig uri host port with
  | error e => simp [record_pipeline, hcfg] at h
  | ok cfg =>
    cases hsel : selectExecutions s pn rid with
    | error e => simp [record_pipeline, hcfg, hsel] at h
    | ok executions =>
      simp only [record_pipeline, hcfg, hsel] at h ⊢
      exact ⟨executions, rfl, copyLoop_fst_of_none fs _ h⟩

/-- Witness for C6: on the sample store with every source present, the
run performs exactly the four operations (two makedirs, two copies). -/
theorem C6_witness :
    ∃ executions,
      selectExecutions sampleStore none (some "r1") = Except.ok executions
      ∧ (record_pipeline sampleStore allFs "out" (some "db") none none
            none (some "r1")).1
          = copyOps (get_paths sampleStore executions "out") :=
  C6_no_exception_copies_everything sampleStore allFs "out" (some "db") none none
    none (some "r1") (by decide)

/-- C9: if the pairs yielded by `get_paths` split as
`before ++ (src, dest) :: after` where every source in `before` exists
and `src` does not, `record_pipeline` performs exactly the copies for
`before` (kept, no rollback), then raises `FileNotFoundError` for `src`;
the failing artifact and everything after it are not copied. -/
theorem C9_fails_at_first_missing_source (s : MetadataStore) (fs : String → Bool)
    (out : String) (uri : Option String) (host : Option String) (port : Option Nat)
    (pn rid : Option String) (cfg : ConnConfig) (executions : List Execution)
    (before after : List (String × String)) (src dest : String)
    (hcfg : chooseConfig uri host port = Except.ok cfg)
    (hsel : selectExecutions s pn rid = Except.ok executions)
    (hsplit : get_paths s executions out = before ++ (src, dest) :: after)
    (hbefore : ∀ p ∈ before, fs p.1 = true)
    (hsrc : fs src = false) :
    record_pipeline s fs out uri host port pn rid
      = (copyOps before,
         some (RecError.fileNotFound (src ++ " does not exist"))) := by
  simp only [record_pipeline, hcfg, hsel, hsplit]
  exact copyLoop_append_fail fs src dest after before hbefore hsrc

/-- Witness for C9: with only `/tmp/a10` on disk, the run copies
artifact 10, then fails on artifact 12 with `FileNotFoundError`, keeping
the first copy. -/
theorem C9_witness :
    record_pipeline sampleStore onlyA10Fs "out" (some "db") none none
        none (some "r1")
      = (copyOps [("/tmp/a10", "out/CsvExampleGen/examples")],
         some (RecError.fileNotFound ("/tmp/a12" ++ " does not exist"))) :=
  C9_fails_at_first_missing_source sampleStore onlyA10Fs "out" (some "db") none
    none none (some "r1") (ConnConfig.sqlite "db") sampleStore.executions
    [("/tmp/a10", "out/CsvExampleGen/examples")] [] "/tmp/a12" "out/Trainer/model"
    rfl rfl (by decide) (by decide) (by decide)

/-- C10: when no pipeline-run context matches `pipeline_name`,
`get_latest_executions` yields no result (Python's `max` raises
`ValueError` on the empty sequence rather than returning an empty list),
and `record_pipeline` with `run_id = None` fails with that error having
performed no operation. -/
theorem C10_unknown_pipeline_name_fails (s : MetadataStore) (fs : String → Bool)
    (out : String) (uri : Option String) (host : Option String) (port : Option Nat)
    (pn : String) (cfg : ConnConfig)
    (hcfg : chooseConfig uri host port = Except.ok cfg)
    (h : matchingContexts s pn = []) :
    get_latest_executions s pn = none
    ∧ record_pipeline s fs out uri host port (some pn) none
        = ([], some (RecError.valueError "max() arg is an empty sequence")) := by
  have hnone : get_latest_executions s pn = none :=
    (get_latest_executions_eq_none_iff s pn).mpr h
  refine ⟨hnone, ?_⟩
  simp [record_pipeline, hcfg, selectExecutions, hnone]

/-- Witness for C10: the sample store has no pipeline-run context for
pipeline `q`, so recording it by name fails without copying anything. -/
theorem C10_witness :
    get_latest_executions sampleStore "q" = none
    ∧ record_pipeline sampleStore allFs "out" (some "db") none none
          (some "q") none
        = ([], some (RecError.valueError "max() arg is an empty sequence")) :=
  C10_unknown_pipeline_name_fails sampleStore allFs "out" (some "db") none none
    "q" (ConnConfig.sqlite "db") rfl (by decide)

/-- C8 counterexample: with a valid sqlite config (`metadata_db_uri`
given), `run_id = None` and a supplied `pipeline_name` matching no
pipeline-run context, `record_pipeline` raises `ValueError` (Python's
`max` over the empty context list), although none of the claim's three
argument cases holds — so ValueError is not raised in *exactly* those
three cases. -/
theorem C8_counterexample :
    ¬ ((∃ m, (record_pipeline noContextStore (fun _ => false) "out" (some "db")
            none none (some "p") none).2 = some (RecError.valueError m))
      ↔ ((¬((none : Option String) ≠ none ∧ (none : Option Nat) ≠ none)
            ∧ (some "db" : Option String) = none)
        ∨ (((none : Option String) ≠ none ∧ (none : Option Nat) ≠ none
              ∨ (some "db" : Option String) ≠ none)
            ∧ (none : Option String) = none ∧ (some "p" : Option String) = none)
        ∨ (∃ r, (none : Option String) = some r
            ∧ ∀ e ∈ noContextStore.executions,
                propStr e.properties "run_id" ≠ r))) := by
  intro hiff
  have hv : ∃ m, (record_pipeline noContextStore (fun _ => false) "out" (some "db")
      none none (some "p") none).2 = some (RecError.valueError m) :=
    ⟨"max() arg is an empty sequence", by decide⟩
  rcases hiff.mp hv with h | h | h
  · exact Option.noConfusion h.2
  · exact Option.noConfusion h.2.2
  · obtain ⟨r, hr, _⟩ := h
    exact Option.noConfusion hr

/-- C8 amended: `record_pipeline` raises `ValueError`, always before
performing any operation, in exactly these cases: (1) neither a complete
host/port pair nor `metadata_db_uri` is given; (2) a config was chosen
but both `run_id` and `pipeline_name` are `None`; (3) `run_id` is given
but no execution carries it; (4) `run_id` is `None` and the given
`pipeline_name` matches no pipeline-run context (Python's `max` over an
empty sequence).  When host and port are both given the gRPC config is
chosen even if `metadata_db_uri` is also given. -/
theorem C8_amended_valueError_cases (s : MetadataStore) (fs : String → Bool)
    (out : String) (uri : Option String) (host : Option String) (port : Option Nat)
    (pn rid : Option String) :
    ((∃ m, (record_pipeline s fs out uri host port pn rid).2
          = some (RecError.valueError m))
      ↔ ((¬(host ≠ none ∧ port ≠ none) ∧ uri = none)
        ∨ ((host ≠ none ∧ port ≠ none ∨ uri ≠ none) ∧ rid = none ∧ pn = none)
        ∨ (∃ r, rid = some r
            ∧ ∀ e ∈ s.executions, propStr e.properties "run_id" ≠ r)
        ∨ (rid = none ∧ ∃ p, pn = some p ∧ matchingContexts s p = [])))
    ∧ ((∃ m, (record_pipeline s fs out uri host port pn rid).2
          = some (RecError.valueError m))
        → (record_pipeline s fs out uri host port pn rid).1 = [])
    ∧ (∀ h p, host = some h → port = some p →
        chooseConfig uri host port = Except.ok (ConnConfig.grpc h p)) := by
  obtain ⟨hccE, hccO, hccV, hccG⟩ := chooseConfig_spec uri host port
  refine ⟨?_, ?_, hccG⟩
  · cases hcfg : chooseConfig uri host port with
    | error e =>
      obtain ⟨m, rfl⟩ := hccV e hcfg
      have hcond := hccE.mp ⟨m, hcfg⟩
      refine ⟨fun _ => Or.inl hcond, fun _ => ⟨m, ?_⟩⟩
      simp [record_pipeline, hcfg]
    | ok cfg =>
      have hok : (host ≠ none ∧ port ≠ none) ∨ uri ≠ none := hccO.mp ⟨cfg, hcfg⟩
      rw [record_pipeline_valueError_of_ok s fs out uri host port pn rid cfg hcfg,
        selectExecutions_valueError_iff]
      constructor
      · rintro (⟨hrid, hpn⟩ | h | h)
        · exact Or.inr (Or.inl ⟨hok, hrid, hpn⟩)
        · exact Or.inr (Or.inr (Or.inl h))
        · exact Or.inr (Or.inr (Or.inr h))
      · rintro (⟨hnp, hnou⟩ | ⟨_, hrid, hpn⟩ | h | h)
        · rcases hok with hk | hk
          · exact absurd hk hnp
          · exact absurd hnou hk
        · exact Or.inl ⟨hrid, hpn⟩
        · exact Or.inr (Or.inl h)
        · exact Or.inr (Or.inr h)
  · rintro ⟨m, hm⟩
    cases hcfg : chooseConfig uri host port with
    | error e => simp [record_pipeline, hcfg]
    | ok cfg =>
      cases hsel : selectExecutions s pn rid with
      | error e => simp [record_pipeline, hcfg, hsel]
      | ok ex =>
        exfalso
        simp only [record_pipeline, hcfg, hsel] at hm
        exact copyLoop_ne_valueError fs _ m hm

/-- Witness for the amended C8: on the counterexample input the raised
error is a `ValueError` and no operation was performed. -/
theorem C8_amended_witness :
    (record_pipeline noContextStore (fun _ => false) "out" (some "db") none none
        (some "p") none).1 = [] :=
  (C8_amended_valueError_cases noContextStore (fun _ => false) "out" (some "db")
    none none (some "p") none).2.1 ⟨"max() arg is an empty sequence", by decide⟩

end PipelineRecorder
